import Mathlib

/-!
Verification of the workflow control-plane server
(`server/workflow/workflow_server.go`) and the archive retry command
(`cmd/argo/commands/archive/retry.go`).

The Go code is shallowly embedded: each handler becomes a pure Lean
function over explicit inputs standing for the results of its
collaborator calls (substrate get/list/delete, archive store,
permission checks, hydrator).  Collaborators that live outside the
translated sources (the live/archive source adapters, the error
re-coding helper, the canonical sort comparator) are modelled from the
specification and marked as such in their doc comments.
-/

namespace ArgoWfServer

/-- gRPC-style status codes used by the server boundary. -/
inductive Code where
  | ok
  | invalidArgument
  | notFound
  | permissionDenied
  | deadlineExceeded
  | resourceExhausted
  | internal
deriving DecidableEq, Repr

/-- A boundary error: an optional status code (`none` models a plain Go
error that has not been re-coded yet) plus a message. -/
structure Err where
  code : Option Code
  msg : String
deriving DecidableEq, Repr

/-- Modelled from the spec: `sutils.ToStatusError` re-codes a
lower-level error at the boundary with the given code, but an error
that already carries a status code keeps it ("lower-level errors are
wrapped with context and re-coded at the boundary", and the original
status code is preserved "to keep status codes meaningful to the
caller"). -/
def toStatusError (e : Err) (c : Code) : Err :=
  match e.code with
  | some _ => e
  | none => { e with code := some c }

/-- The slice of a workflow record the verified handlers read:
identity (namespace, name, uid), the creation timestamp, and the
completion timestamp (`none` while the workflow has not finished). -/
structure Workflow where
  ns : String
  name : String
  uid : String
  creationTimestamp : Nat
  finishedAt : Option Nat
deriving DecidableEq, Repr

/-- The reserved "most recent workflow" alias (`latestAlias` in the source). -/
def latestAlias : String := "@latest"

/-! ## Hybrid paginator (`ListWorkflows`) -/

/-- The fields of a list request the paginator reads: the parsed
offset and limit (from `sutils.BuildListOptions`) and the
remaining-item-count flag.  `limit = 0` means unlimited. -/
structure ListQuery where
  offset : Nat
  limit : Nat
  showRemainingItemCount : Bool
deriving DecidableEq, Repr

/-- The page a list call returns: items, the continuation token
(`ListMeta.Continue`), and the remaining item count when requested. -/
structure WorkflowPage where
  items : List Workflow
  continueTok : Option String
  remainingItemCount : Option Int
deriving DecidableEq, Repr

/-- Modelled from the spec: both source adapters (the live
`store.WorkflowLister` and the archive `sqldb.WorkflowArchive`, which
are outside the translated sources) return the window of their
filter-matching items starting at `offset`, capped at `limit` items; a
non-positive limit means unlimited ("a live result page may return
fewer than limit items if liveCount - offset < limit"; "limit == 0
(unlimited)"). -/
def sourceWindow (items : List Workflow) (offset limit : Int) : List Workflow :=
  let dropped := items.drop offset.toNat
  if limit ≤ 0 then dropped else dropped.take limit.toNat

theorem sourceWindow_nonpos (items : List Workflow) (off lim : Int) (h : lim ≤ 0) :
    sourceWindow items off lim = items.drop off.toNat := by
  unfold sourceWindow
  rw [if_pos h]

theorem sourceWindow_pos (items : List Workflow) (off lim : Int) (h : 0 < lim) :
    sourceWindow items off lim = (items.drop off.toNat).take lim.toNat := by
  unfold sourceWindow
  rw [if_neg (by omega)]

/-- Modelled from the spec: the canonical workflow ordering used by
`sort.Sort(wfs)` — workflows without a completion time come first
(newest creation first), then completion time descending, ties broken
by name. -/
def wfLess (a b : Workflow) : Bool :=
  match a.finishedAt, b.finishedAt with
  | none, none =>
      if a.creationTimestamp = b.creationTimestamp then decide (a.name < b.name)
      else decide (b.creationTimestamp < a.creationTimestamp)
  | none, some _ => true
  | some _, none => false
  | some fa, some fb =>
      if fa = fb then decide (a.name < b.name) else decide (fb < fa)

/-- The ordering relation fed to the per-page sort. -/
def wfBefore (a b : Workflow) : Prop := wfLess a b = true

instance : DecidableRel wfBefore :=
  fun a b => inferInstanceAs (Decidable (wfLess a b = true))

/-- Lines 210-234 of `ListWorkflows`: the unsorted page assembly —
fetch a live window when `liveWfCount > 0 && (limit == 0 || offset <
liveWfCount)`, then append an archive window when `limit == 0 ||
offset+limit > liveWfCount`, with the archive offset `offset -
liveWfCount` and, when that is negative, offset clamped to zero and
the archive limit reduced by the number of live items fetched. -/
def pageWindowItems (live archive : List Workflow) (q : ListQuery) : List Workflow :=
  let liveWfCount : Int := live.length
  let liveItems : List Workflow :=
    if 0 < liveWfCount ∧ (q.limit = 0 ∨ (q.offset : Int) < liveWfCount)
    then sourceWindow live q.offset q.limit else []
  if q.limit = 0 ∨ liveWfCount < (q.offset : Int) + (q.limit : Int) then
    let archivedOffset : Int := (q.offset : Int) - liveWfCount
    let archivedLimit : Int :=
      if archivedOffset < 0 then (q.limit : Int) - (liveItems.length : Int)
      else (q.limit : Int)
    let archivedOffset : Int := if archivedOffset < 0 then 0 else archivedOffset
    liveItems ++ sourceWindow archive archivedOffset archivedLimit
  else liveItems

/-- Lines 199-279 of `ListWorkflows`: counts from both sources, page
assembly, remaining count clamped at zero, continuation token
`offset + len(wfs)` exactly when items remain, remaining count
attached exactly when requested, and the per-page sort. -/
def listWorkflows (live archive : List Workflow) (q : ListQuery) : WorkflowPage :=
  let totalCount : Int := (live.length : Int) + (archive.length : Int)
  let wfs := pageWindowItems live archive q
  let remainCount : Int := max (totalCount - (q.offset : Int) - (wfs.length : Int)) 0
  { items := List.insertionSort wfBefore wfs
    continueTok :=
      if 0 < remainCount then some (toString (q.offset + wfs.length)) else none
    remainingItemCount :=
      if q.showRemainingItemCount then some remainCount else none }

/-- The unsorted page is exactly the contiguous window of the
live-then-archive concatenation addressed by `offset` and `limit`. -/
theorem pageWindowItems_eq_window (live archive : List Workflow) (q : ListQuery) :
    pageWindowItems live archive q = sourceWindow (live ++ archive) q.offset q.limit := by
  obtain ⟨o, l, flag⟩ := q
  simp only [pageWindowItems]
  split_ifs with h1 h2 h3 h4 h5
  · -- archive fetched, live fetched, archive offset clamped (offset < liveCount)
    by_cases hl : l = 0
    · subst hl
      rw [sourceWindow_nonpos live _ _ (by omega),
        sourceWindow_nonpos archive _ _ (by omega),
        sourceWindow_nonpos (live ++ archive) _ _ (by omega)]
      have ho : ((o : Int)).toNat = o := by omega
      rw [ho, List.drop_append_eq_append_drop]
      have hz : ((0 : Int)).toNat = 0 := rfl
      have hsub : o - live.length = 0 := by omega
      rw [hz, hsub, List.drop_zero]
    · have hLol : (live.length : Int) < (o : Int) + (l : Int) := by
        rcases h1 with h | h
        · exact absurd h hl
        · exact h
      rw [sourceWindow_pos live _ _ (by omega),
        sourceWindow_pos (live ++ archive) _ _ (by omega)]
      have ho : ((o : Int)).toNat = o := by omega
      have hln : ((l : Int)).toNat = l := by omega
      rw [ho, hln, List.drop_append_eq_append_drop]
      have hsub : o - live.length = 0 := by omega
      rw [hsub, List.drop_zero, List.take_append_eq_append_take]
      have htall : (live.drop o).take l = live.drop o :=
        List.take_of_length_le (by simp only [List.length_drop]; omega)
      rw [htall]
      rw [sourceWindow_pos archive _ _ (by simp only [List.length_drop]; omega)]
      have harchlim : (((l : Int)) - ((live.drop o).length : Int)).toNat
          = l - (live.drop o).length := by
        simp only [List.length_drop]
        omega
      rw [harchlim]
      have hz : ((0 : Int)).toNat = 0 := rfl
      rw [hz, List.drop_zero]
  · -- archive fetched, live fetched, archive offset not clamped: forces limit = 0
    have hl : l = 0 := by
      rcases h2.2 with h | h
      · exact h
      · exact absurd h (by omega)
    subst hl
    rw [sourceWindow_nonpos live _ _ (by omega),
      sourceWindow_nonpos archive _ _ (by omega),
      sourceWindow_nonpos (live ++ archive) _ _ (by omega)]
    have ho : ((o : Int)).toNat = o := by omega
    have hoff : (((o : Int)) - ((live.length : Nat) : Int)).toNat = o - live.length := by
      omega
    rw [ho, hoff, List.drop_append_eq_append_drop]
  · -- archive fetched, live skipped, but offset < liveCount: impossible
    exact absurd ⟨by omega, Or.inr (by omega)⟩ h2
  · -- archive fetched, live skipped (offset at or past the live items)
    rw [List.nil_append]
    have hdropl : live.drop o = [] := List.drop_eq_nil_of_le (by omega)
    by_cases hl : l = 0
    · subst hl
      rw [sourceWindow_nonpos archive _ _ (by omega),
        sourceWindow_nonpos (live ++ archive) _ _ (by omega)]
      have ho : ((o : Int)).toNat = o := by omega
      have hoff : (((o : Int)) - ((live.length : Nat) : Int)).toNat = o - live.length := by
        omega
      rw [ho, hoff, List.drop_append_eq_append_drop, hdropl, List.nil_append]
    · rw [sourceWindow_pos archive _ _ (by omega),
        sourceWindow_pos (live ++ archive) _ _ (by omega)]
      have ho : ((o : Int)).toNat = o := by omega
      have hln : ((l : Int)).toNat = l := by omega
      have hoff : (((o : Int)) - ((live.length : Nat) : Int)).toNat = o - live.length := by
        omega
      rw [ho, hln, hoff, List.drop_append_eq_append_drop, hdropl, List.nil_append]
  · -- archive skipped, live fetched: the page fits in the live items
    obtain ⟨hl, hle⟩ := not_or.mp h1
    have hoL : o < live.length := by
      rcases h5.2 with h | h
      · exact absurd h hl
      · omega
    rw [sourceWindow_pos live _ _ (by omega),
      sourceWindow_pos (live ++ archive) _ _ (by omega)]
    have ho : ((o : Int)).toNat = o := by omega
    have hln : ((l : Int)).toNat = l := by omega
    rw [ho, hln, List.drop_append_eq_append_drop, List.take_append_eq_append_take]
    have hz : l - (live.drop o).length = 0 := by
      simp only [List.length_drop]
      omega
    rw [hz, List.take_zero, List.append_nil]
  · -- archive skipped and live skipped: impossible
    obtain ⟨hl, hle⟩ := not_or.mp h1
    exact absurd ⟨by omega, Or.inr (by omega)⟩ h5

/-! ## Alias resolver (`getWorkflow`, `getLatestWorkflow`) -/

/-- One step of the `getLatestWorkflow` loop: `if
latest.CreationTimestamp.Before(&wf.CreationTimestamp) { latest = wf }`
(`Before` is a strict comparison, so ties keep the earlier item). -/
def latestStep (latest wf : Workflow) : Workflow :=
  if latest.creationTimestamp < wf.creationTimestamp then wf else latest

/-- Lines 759-774: list all live workflows of the namespace with no
filter (the caller passes that list in), fail with NotFound when it is
empty, otherwise scan for the latest creation timestamp starting from
the first item. -/
def getLatestWorkflow (wfList : List Workflow) : Except Err Workflow :=
  match wfList with
  | [] => .error (toStatusError ⟨none, "no workflows found"⟩ .notFound)
  | w :: _ => .ok (wfList.foldl latestStep w)

/-- Largest creation timestamp in a list (0 when empty); used only to
state what `getLatestWorkflow` returns. -/
def maxCreationTS (l : List Workflow) : Nat :=
  l.foldr (fun w acc => max w.creationTimestamp acc) 0

theorem maxCreationTS_cons (a : Workflow) (t : List Workflow) :
    maxCreationTS (a :: t) = max a.creationTimestamp (maxCreationTS t) := rfl

theorem le_maxCreationTS (l : List Workflow) (x : Workflow) (hx : x ∈ l) :
    x.creationTimestamp ≤ maxCreationTS l := by
  induction l with
  | nil => cases hx
  | cons a t ih =>
    rw [maxCreationTS_cons]
    rcases List.mem_cons.mp hx with h | h
    · subst h
      exact le_max_left _ _
    · exact le_trans (ih h) (le_max_right _ _)

/-- First element of a list whose creation timestamp equals `m`; used
only to state what `getLatestWorkflow` returns ("ties broken by
first-seen input order"). -/
def firstAtMax (m : Nat) : List Workflow → Option Workflow
  | [] => none
  | x :: xs => if x.creationTimestamp = m then some x else firstAtMax m xs

theorem firstAtMax_cons (m : Nat) (a : Workflow) (t : List Workflow) :
    firstAtMax m (a :: t)
      = if a.creationTimestamp = m then some a else firstAtMax m t := rfl

/-- The `getLatestWorkflow` scan returns the first element of the list
attaining the maximal creation timestamp. -/
theorem foldl_latestStep_eq_firstAtMax (w : Workflow) (l : List Workflow) :
    firstAtMax (maxCreationTS (w :: l)) (w :: l) = some (l.foldl latestStep w) := by
  induction l generalizing w with
  | nil =>
    simp [firstAtMax, maxCreationTS]
  | cons x xs ih =>
    rw [List.foldl_cons]
    by_cases hwx : w.creationTimestamp < x.creationTimestamp
    · have hstep : latestStep w x = x := if_pos hwx
      rw [hstep]
      have hxle : x.creationTimestamp ≤ maxCreationTS (x :: xs) := by
        rw [maxCreationTS_cons]
        exact le_max_left _ _
      have hM : maxCreationTS (w :: x :: xs) = maxCreationTS (x :: xs) := by
        rw [maxCreationTS_cons w (x :: xs)]
        omega
      rw [hM, firstAtMax_cons, if_neg (by omega)]
      exact ih x
    · have hstep : latestStep w x = w := if_neg hwx
      rw [hstep]
      have hM : maxCreationTS (w :: x :: xs) = maxCreationTS (w :: xs) := by
        rw [maxCreationTS_cons w (x :: xs), maxCreationTS_cons x xs,
          maxCreationTS_cons w xs]
        omega
      have hwle : w.creationTimestamp ≤ maxCreationTS (w :: xs) := by
        rw [maxCreationTS_cons w xs]
        exact le_max_left _ _
      rw [hM]
      by_cases hw : w.creationTimestamp = maxCreationTS (w :: xs)
      · rw [firstAtMax_cons, if_pos hw]
        have h2 := ih w
        rw [firstAtMax_cons, if_pos hw] at h2
        exact h2
      · have hx : ¬ x.creationTimestamp = maxCreationTS (w :: xs) := by omega
        rw [firstAtMax_cons, if_neg hw, firstAtMax_cons, if_neg hx]
        have h2 := ih w
        rw [firstAtMax_cons, if_neg hw] at h2
        exact h2

/-- The result of a live `Get`: the workflow, or the original error
(`wf == nil || origErr != nil` collapses to the error case). -/
def getWorkflowOrigErr (origErr : Err) ( _newErr : Err) : Err :=
  toStatusError origErr .internal

/-- Lines 716-745 (`getWorkflow`): resolve the latest-alias, else try
the live get; on live failure check permission and fall back to the
archive, always surfacing the original live error via
`getWorkflowOrigErr`. -/
def getWorkflowServer (name : String) (nsList : List Workflow)
    (liveRes : Except Err Workflow) (canIRes : Except Err Bool)
    (archiveRes : Except Err Workflow) : Except Err Workflow :=
  if name = latestAlias then
    match getLatestWorkflow nsList with
    | .error e => .error (toStatusError e .internal)
    | .ok latest => .ok latest
  else
    match liveRes with
    | .ok wf => .ok wf
    | .error origErr =>
      match canIRes with
      | .error e => .error (getWorkflowOrigErr origErr e)
      | .ok allowed =>
        if allowed = false then
          .error (getWorkflowOrigErr origErr ⟨some .permissionDenied, "permission denied"⟩)
        else
          match archiveRes with
          | .error e => .error (getWorkflowOrigErr origErr e)
          | .ok wf => .ok wf

/-! ## Set-outcome (`SetWorkflow`) -/

/-- The phase switch of `SetWorkflow` (lines 638-644): `Succeeded`,
`Failed`, `Error` and the empty string pass, anything else is an
invalid phase to set. -/
def validPhaseToSet (phase : String) : Bool :=
  phase = "Succeeded" || phase = "Failed" || phase = "Error" || phase = ""

/-- Lines 627-670 (`SetWorkflow`): get, validate, check the requested
phase, parse the output parameters, run `util.SetWorkflow` against the
substrate state `σ`, then re-fetch.  The substrate mutation
(`util.SetWorkflow`, outside the translated sources) is the opaque
`applySet`; the result pairs the reply with the final substrate
state so that "no mutation" is visible. -/
def setWorkflowServer {σ : Type} (st : σ) (getRes : Except Err Workflow)
    (validateRes : Except Err Unit) (reqPhase : String)
    (outputParamsRes : Except Err (List (String × String)))
    (applySet : σ → Except Err σ) (refetch : σ → Except Err Workflow) :
    Except Err Workflow × σ :=
  match getRes with
  | .error e => (.error (toStatusError e .internal), st)
  | .ok _wf =>
    match validateRes with
    | .error e => (.error (toStatusError e .invalidArgument), st)
    | .ok _ =>
      if validPhaseToSet reqPhase then
        match outputParamsRes with
        | .error e =>
          (.error (toStatusError
            ⟨none, "unable to parse output parameter set request: " ++ e.msg⟩
            .invalidArgument), st)
        | .ok _params =>
          match applySet st with
          | .error e => (.error (toStatusError e .internal), st)
          | .ok st2 =>
            match refetch st2 with
            | .error e => (.error (toStatusError e .internal), st2)
            | .ok wf2 => (.ok wf2, st2)
      else
        (.error (toStatusError
          ⟨none, reqPhase ++ " is an invalid phase to set to"⟩
          .invalidArgument), st)

/-! ## Retry (`RetryWorkflow`, `errorFromChannel`) -/

/-- Outcome of one execution-unit (pod) deletion issued during retry:
success, a not-found error (line 475 treats it as success), or any
other error, which is pushed onto the error channel. -/
inductive DeleteOutcome where
  | ok
  | notFoundErr (e : Err)
  | otherErr (e : Err)
deriving DecidableEq, Repr

/-- Lines 467-481: the deletion fan-out loop.  Every pod in
`podsToDelete` gets a deletion task; a task whose outcome is a
non-not-found error sends it to the channel.  The fold returns the
pods whose deletion was issued (in loop order) together with the
errors that were sent. -/
def runPodDeletions (del : String → DeleteOutcome) (pods : List String) :
    List String × List Err :=
  pods.foldl
    (fun acc p =>
      match del p with
      | .otherErr e => (acc.1 ++ [p], acc.2 ++ [e])
      | _ => (acc.1 ++ [p], acc.2))
    ([], [])

/-- The errors a deletion fan-out sends to the channel, in loop order;
the channel may deliver them in any order (goroutine scheduling). -/
def podDeletionErrors (del : String → DeleteOutcome) (pods : List String) : List Err :=
  pods.filterMap (fun p =>
    match del p with
    | .otherErr e => some e
    | _ => none)

/-- Lines 433-440 (`errorFromChannel`): a non-blocking receive — the
first queued error, or nothing when the channel is empty. -/
def errorFromChannel (errCh : List Err) : Option Err :=
  errCh.head?

/-- Lines 442-499 (`RetryWorkflow`): get, validate, hydrate,
reformulate (yielding the pods to delete), run the deletion fan-out,
wait, read at most one error from the channel, then dehydrate and
persist.  `chOrder` is the order in which the channel delivered the
collected errors (a permutation of `podDeletionErrors`, fixed by the
scheduler).  The second component is the list of deletions issued. -/
def retryWorkflowServer (getRes : Except Err Workflow)
    (validateRes hydrateRes : Except Err Unit)
    (formulateRes : Except Err (Workflow × List String))
    (del : String → DeleteOutcome) (chOrder : List Err)
    (dehydrateRes : Except Err Unit) (updateRes : Except Err Workflow) :
    Except Err Workflow × List String :=
  match getRes with
  | .error e => (.error (toStatusError e .internal), [])
  | .ok _wf =>
    match validateRes with
    | .error e => (.error (toStatusError e .invalidArgument), [])
    | .ok _ =>
      match hydrateRes with
      | .error e => (.error (toStatusError e .internal), [])
      | .ok _ =>
        match formulateRes with
        | .error e => (.error (toStatusError e .internal), [])
        | .ok (_wf2, podsToDelete) =>
          let issued := (runPodDeletions del podsToDelete).1
          match errorFromChannel chOrder with
          | some e => (.error (toStatusError e .internal), issued)
          | none =>
            match dehydrateRes with
            | .error e => (.error (toStatusError e .internal), issued)
            | .ok _ =>
              match updateRes with
              | .error e => (.error (toStatusError e .internal), issued)
              | .ok wf3 => (.ok wf3, issued)

theorem runPodDeletions_eq (del : String → DeleteOutcome) (pods : List String) :
    runPodDeletions del pods = (pods, podDeletionErrors del pods) := by
  suffices h : ∀ acc : List String × List Err,
      pods.foldl
        (fun acc p =>
          match del p with
          | .otherErr e => (acc.1 ++ [p], acc.2 ++ [e])
          | _ => (acc.1 ++ [p], acc.2))
        acc
      = (acc.1 ++ pods, acc.2 ++ podDeletionErrors del pods) by
    have := h ([], [])
    simpa [runPodDeletions] using this
  induction pods with
  | nil => intro acc; simp [podDeletionErrors]
  | cons p ps ih =>
    intro acc
    rw [List.foldl_cons]
    cases hdel : del p with
    | ok =>
      simp only [hdel]
      rw [ih]
      simp [podDeletionErrors, hdel]
    | notFoundErr e =>
      simp only [hdel]
      rw [ih]
      simp [podDeletionErrors, hdel]
    | otherErr e =>
      simp only [hdel]
      rw [ih]
      simp [podDeletionErrors, hdel]

/-! ## Watch streaming (`WatchWorkflows`) -/

/-- One event received from the substrate watch channel, together with
the outcomes of the work the loop body does on it: whether the event
object is a `*wfv1.Workflow`, whether the field cleaner excludes
`status.nodes` (in which case hydration is skipped), and the raw
(not-yet-re-coded) results of hydration, projection and send. -/
structure WatchEventData where
  isWorkflow : Bool
  willExcludeNodes : Bool
  hydrateRes : Except String Unit
  cleanRes : Except String Workflow
  sendRes : Except String Unit

/-- Lines 338-357, the body of the watch loop for one event:
non-workflow objects, hydration failures, projection failures and send
failures each abort the stream, re-coded as Internal. -/
def processWatchEvent (e : WatchEventData) : Except Err Unit :=
  if e.isWorkflow = false then
    .error (toStatusError ⟨none, "unexpected object type"⟩ .internal)
  else
    match (if e.willExcludeNodes = false then e.hydrateRes else .ok ()) with
    | .error msg => .error (toStatusError ⟨none, msg⟩ .internal)
    | .ok _ =>
      match e.cleanRes with
      | .error msg =>
        .error (toStatusError ⟨none, "unable to CleanFields in request: " ++ msg⟩ .internal)
      | .ok _wf =>
        match e.sendRes with
        | .error msg => .error (toStatusError ⟨none, msg⟩ .internal)
        | .ok _ => .ok ()

/-- What the `select` of the watch loop observes at one iteration:
the caller's context is done, the substrate event channel is closed,
or an event arrives. -/
inductive WatchStep where
  | ctxDone
  | chanClosed
  | ev (e : WatchEventData)

/-- Lines 330-359, the watch loop over the observed trace: a done
context returns nil (clean end of stream), a closed channel returns
`io.EOF` re-coded ResourceExhausted, an event is processed and any
failure ends the stream; `none` means the trace ran out with the
stream still live. -/
def watchLoop : List WatchStep → Option (Except Err Unit)
  | [] => none
  | .ctxDone :: _ => some (.ok ())
  | .chanClosed :: _ => some (.error (toStatusError ⟨none, "EOF"⟩ .resourceExhausted))
  | .ev e :: rest =>
    match processWatchEvent e with
    | .error err => some (.error err)
    | .ok _ => watchLoop rest

/-- Lines 281-359 (`WatchWorkflows`): after the eager header flush
(whose failure is returned as-is) the handler enters the loop. -/
def watchWorkflows (headerRes : Except Err Unit) (steps : List WatchStep) :
    Option (Except Err Unit) :=
  match headerRes with
  | .error e => some (.error e)
  | .ok _ => watchLoop steps

/-! ## Create (`CreateWorkflow`) -/

/-- The identity fields of the request body that the create error
handler reads (`req.Workflow.Name`, `req.Workflow.GenerateName`). -/
structure CreateReqWf where
  name : String
  generateName : String
deriving DecidableEq, Repr

/-- A substrate create failure: whether `apierr.IsServerTimeout`
holds, plus the message. -/
structure CreateFailure where
  isServerTimeout : Bool
  msg : String
deriving DecidableEq, Repr

/-- The hint message built at line 136 for the ambiguous timeout case
(the workflow may actually have been created). -/
def createTimeoutHint (name origMsg : String) : String :=
  "create request failed due to timeout, but it is possible that workflow "
    ++ name ++ " already exists. Original error: " ++ origMsg

/-- Lines 98-145 (`CreateWorkflow`): nil body is InvalidArgument,
validation failure is InvalidArgument, dry runs return early, and a
substrate create failure is DeadlineExceeded with the hint only when
it is a server timeout AND both `GenerateName` and `Name` are
non-empty; every other create failure is Internal. -/
def createWorkflowServer (reqWf : Option CreateReqWf)
    (validateRes : Except Err Unit) (hasDryRun serverDryRun : Bool)
    (serverDryRunRes : Except Err CreateReqWf)
    (createRes : Except CreateFailure CreateReqWf) : Except Err CreateReqWf :=
  match reqWf with
  | none => .error (toStatusError ⟨none, "workflow body not specified"⟩ .invalidArgument)
  | some w =>
    match validateRes with
    | .error e => .error (toStatusError e .invalidArgument)
    | .ok _ =>
      if hasDryRun then .ok w
      else if serverDryRun then
        match serverDryRunRes with
        | .error e => .error (toStatusError e .invalidArgument)
        | .ok w2 => .ok w2
      else
        match createRes with
        | .ok wf => .ok wf
        | .error ce =>
          if ce.isServerTimeout = true ∧ w.generateName ≠ "" ∧ w.name ≠ "" then
            .error (toStatusError ⟨none, createTimeoutHint w.name ce.msg⟩ .deadlineExceeded)
          else
            .error (toStatusError ⟨none, ce.msg⟩ .internal)

/-! ## Archive retry command (`retryArchivedWorkflows`) -/

/-- Lines 120-127 of `cmd/argo/commands/archive/retry.go`: each UID
argument becomes a workflow stub carrying only the UID and the
command's namespace. -/
def argWorkflows (args : List String) (ns : String) : List Workflow :=
  args.map (fun uid => { ns := ns, name := "", uid := uid, creationTimestamp := 0, finishedAt := none })

/-- Lines 129-150: the retry loop with UID de-duplication.  `retried`
accumulates the UIDs inserted into `retriedUids` (insertion happens
before the RPC); an RPC error aborts the whole command with that
error. -/
def retryLoop (retryCall : Workflow → Except Err Workflow) :
    List Workflow → List String → Option Workflow →
    Except Err (List String × Option Workflow)
  | [], retried, lastRetried => .ok (retried, lastRetried)
  | wf :: rest, retried, lastRetried =>
    if wf.uid ∈ retried then retryLoop retryCall rest retried lastRetried
    else
      match retryCall wf with
      | .error e => .error e
      | .ok w => retryLoop retryCall rest (retried ++ [wf.uid]) (some w)

/-- Lines 107-156 (`retryArchivedWorkflows`): assemble the worklist
(selector results when a selector was given, then the UID arguments),
run the de-duplicated retry loop, and perform the wait/watch/log
follow-up exactly when one workflow was retried (`len(retriedUids) ==
1`).  The Boolean in the result records whether the follow-up ran. -/
def retryArchivedWorkflows (selectorWfs : List Workflow) (hasSelector : Bool)
    (args : List String) (ns : String)
    (retryCall : Workflow → Except Err Workflow) :
    Except Err (List String × Option Workflow × Bool) :=
  let wfs := (if hasSelector then selectorWfs else []) ++ argWorkflows args ns
  match retryLoop retryCall wfs [] none with
  | .error e => .error e
  | .ok (retried, lastRetried) => .ok (retried, lastRetried, retried.length = 1)

/-! ## Concrete fixtures used by counterexamples and witnesses -/

/-- A live workflow: finished one day ago. -/
def wfLiveA : Workflow :=
  { ns := "ns1", name := "b", uid := "uid-b", creationTimestamp := 5, finishedAt := some 10 }

/-- An archived workflow that finished long ago. -/
def wfArchOld : Workflow :=
  { ns := "ns1", name := "a", uid := "uid-a", creationTimestamp := 1, finishedAt := some 1 }

/-- An archived workflow that finished recently. -/
def wfArchNew : Workflow :=
  { ns := "ns1", name := "c", uid := "uid-c", creationTimestamp := 2, finishedAt := some 3 }

/-! ## Claim C1 -/

/-- C1 is stated for every `ListQuery` with `limit = 0`; at `offset = 1`
with one live and one archived workflow the page has a single item,
not `liveCount + archiveCount = 2`: the adapters still apply the
offset when the limit is unlimited. -/
theorem claim1_counterexample :
    ¬ ((listWorkflows [wfLiveA] [wfArchOld] ⟨1, 0, false⟩).items.length
        = [wfLiveA].length + [wfArchOld].length) := by
  decide

/-- An unlimited page (`limit = 0`) is everything from `offset` on. -/
theorem pageWindowItems_limit_zero (live archive : List Workflow) (q : ListQuery)
    (h : q.limit = 0) :
    pageWindowItems live archive q = (live ++ archive).drop q.offset := by
  rw [pageWindowItems_eq_window, h, sourceWindow_nonpos _ _ _ (by omega)]
  have ho : ((q.offset : Int)).toNat = q.offset := by omega
  rw [ho]

/-- A limited page is the `limit`-sized window from `offset`. -/
theorem pageWindowItems_limit_pos (live archive : List Workflow) (q : ListQuery)
    (h : 0 < q.limit) :
    pageWindowItems live archive q = ((live ++ archive).drop q.offset).take q.limit := by
  rw [pageWindowItems_eq_window, sourceWindow_pos _ _ _ (by omega)]
  have ho : ((q.offset : Int)).toNat = q.offset := by omega
  have hl : ((q.limit : Int)).toNat = q.limit := by omega
  rw [ho, hl]

/-- C1 (amended): for every ListQuery with `limit = 0`, the returned
page length is `liveCount + archiveCount - offset` (truncated at 0);
in particular with `offset = 0` it equals `liveCount + archiveCount`. -/
theorem claim1_holds (live archive : List Workflow) (o : Nat) (flag : Bool) :
    (listWorkflows live archive ⟨o, 0, flag⟩).items.length
      = live.length + archive.length - o := by
  have hw : pageWindowItems live archive ⟨o, 0, flag⟩ = (live ++ archive).drop o :=
    pageWindowItems_limit_zero live archive ⟨o, 0, flag⟩ rfl
  show (List.insertionSort wfBefore (pageWindowItems live archive ⟨o, 0, flag⟩)).length = _
  rw [(List.perm_insertionSort wfBefore _).length_eq, hw, List.length_drop,
    List.length_append]

/-! ## Claim C2 -/

/-- C2 fails on the order of items: each page is re-sorted
independently (line 269), so the concatenation of the 1-item pages at
offsets 0 and 1 lists the archive's stored order while the single
2-item page lists completion-time-descending order. -/
theorem claim2_counterexample :
    ¬ (((listWorkflows [] [wfArchOld, wfArchNew] ⟨0, 1, false⟩).items
        ++ (listWorkflows [] [wfArchOld, wfArchNew] ⟨1, 1, false⟩).items)
      = (listWorkflows [] [wfArchOld, wfArchNew] ⟨0, 2, false⟩).items) := by
  decide

/-- C2 (amended): for positive limits, concatenating the pages
`(offset 0, limit k)` and `(offset k, limit m)` yields exactly the
items of the single page `(offset 0, limit k+m)` up to order (the same
multiset; order differs because each page is sorted separately). -/
theorem claim2_holds (live archive : List Workflow) (k m : Nat) (b1 b2 b3 : Bool)
    (hk : 1 ≤ k) (hm : 1 ≤ m) :
    ((listWorkflows live archive ⟨0, k, b1⟩).items
      ++ (listWorkflows live archive ⟨k, m, b2⟩).items).Perm
    (listWorkflows live archive ⟨0, k + m, b3⟩).items := by
  have p1 : (listWorkflows live archive ⟨0, k, b1⟩).items.Perm
      (pageWindowItems live archive ⟨0, k, b1⟩) := List.perm_insertionSort _ _
  have p2 : (listWorkflows live archive ⟨k, m, b2⟩).items.Perm
      (pageWindowItems live archive ⟨k, m, b2⟩) := List.perm_insertionSort _ _
  have p3 : (listWorkflows live archive ⟨0, k + m, b3⟩).items.Perm
      (pageWindowItems live archive ⟨0, k + m, b3⟩) := List.perm_insertionSort _ _
  have e1 : pageWindowItems live archive ⟨0, k, b1⟩ = ((live ++ archive).drop 0).take k :=
    pageWindowItems_limit_pos live archive ⟨0, k, b1⟩ hk
  rw [List.drop_zero] at e1
  have e2 : pageWindowItems live archive ⟨k, m, b2⟩ = ((live ++ archive).drop k).take m :=
    pageWindowItems_limit_pos live archive ⟨k, m, b2⟩ hm
  have e3 : pageWindowItems live archive ⟨0, k + m, b3⟩
      = ((live ++ archive).drop 0).take (k + m) :=
    pageWindowItems_limit_pos live archive ⟨0, k + m, b3⟩ (by show 0 < k + m; omega)
  rw [List.drop_zero] at e3
  have hsplit : (live ++ archive).take (k + m)
      = (live ++ archive).take k ++ ((live ++ archive).drop k).take m :=
    List.take_add (live ++ archive) k m
  refine ((p1.append p2).trans ?_).trans p3.symm
  rw [e1, e2, e3, hsplit]

/-- Witness for C2 (amended) at `k = m = 1` on two archived workflows. -/
theorem claim2_witness :
    ((listWorkflows [] [wfArchOld, wfArchNew] ⟨0, 1, false⟩).items
      ++ (listWorkflows [] [wfArchOld, wfArchNew] ⟨1, 1, false⟩).items).Perm
    (listWorkflows [] [wfArchOld, wfArchNew] ⟨0, 1 + 1, false⟩).items :=
  claim2_holds [] [wfArchOld, wfArchNew] 1 1 false false false (le_refl 1) (le_refl 1)

/-! ## Claim C3 -/

/-- C3: `remaining = max(0, total - offset - len(page))` with `total =
liveCount + archiveCount`; the continuation token is present iff
`remaining > 0` and then equals the numeric string `offset +
len(page)`; the remaining count is attached iff the caller requested
it. -/
theorem claim3_holds (live archive : List Workflow) (q : ListQuery) :
    (listWorkflows live archive q).continueTok
      = (if 0 < max (((live.length : Int) + (archive.length : Int)) - (q.offset : Int)
            - ((listWorkflows live archive q).items.length : Int)) 0
         then some (toString (q.offset + (listWorkflows live archive q).items.length))
         else none)
    ∧ (listWorkflows live archive q).remainingItemCount
      = (if q.showRemainingItemCount
         then some (max (((live.length : Int) + (archive.length : Int)) - (q.offset : Int)
            - ((listWorkflows live archive q).items.length : Int)) 0)
         else none) := by
  have hlen : (listWorkflows live archive q).items.length
      = (pageWindowItems live archive q).length :=
    (List.perm_insertionSort wfBefore _).length_eq
  rw [hlen]
  exact ⟨rfl, rfl⟩

/-! ## Claim C4 -/

/-- C4: when the live get fails, both the permission-denied outcome
and a failed archive fallback surface the original live error
(re-coded only when it carries no status code), never the
PermissionDenied error and never the archive error. -/
theorem claim4_holds (name : String) (nsList : List Workflow) (origErr archErr : Err)
    (h : name ≠ latestAlias) :
    (∀ arch : Except Err Workflow,
      getWorkflowServer name nsList (.error origErr) (.ok false) arch
        = .error (toStatusError origErr .internal))
    ∧ getWorkflowServer name nsList (.error origErr) (.ok true) (.error archErr)
        = .error (toStatusError origErr .internal)
    ∧ (∀ c, origErr.code = some c → toStatusError origErr .internal = origErr)
    ∧ (origErr.code = none →
        toStatusError origErr .internal = ⟨some .internal, origErr.msg⟩) := by
  refine ⟨?_, ?_, ?_, ?_⟩
  · intro arch
    simp [getWorkflowServer, getWorkflowOrigErr, h]
  · simp [getWorkflowServer, getWorkflowOrigErr, h]
  · intro c hc
    simp [toStatusError, hc]
  · intro hc
    obtain ⟨code, msg⟩ := origErr
    simp only at hc
    subst hc
    rfl

/-- Witness for C4: a NotFound live error survives both the denied
permission check and a failed archive lookup. -/
theorem claim4_witness :
    (getWorkflowServer "wf1" [] (.error ⟨some .notFound, "live miss"⟩) (.ok false)
        (.ok wfLiveA) = .error ⟨some .notFound, "live miss"⟩)
    ∧ (getWorkflowServer "wf1" [] (.error ⟨some .notFound, "live miss"⟩) (.ok true)
        (.error ⟨none, "archive miss"⟩) = .error ⟨some .notFound, "live miss"⟩) :=
  ⟨(claim4_holds "wf1" [] ⟨some .notFound, "live miss"⟩ ⟨none, "archive miss"⟩
      (by decide)).1 (.ok wfLiveA),
    (claim4_holds "wf1" [] ⟨some .notFound, "live miss"⟩ ⟨none, "archive miss"⟩
      (by decide)).2.1⟩

/-! ## Claim C5 -/

/-- An element found by `firstAtMax m` has timestamp `m`. -/
theorem firstAtMax_ts (m : Nat) (l : List Workflow) (w : Workflow)
    (h : firstAtMax m l = some w) : w.creationTimestamp = m := by
  induction l with
  | nil => cases h
  | cons a t ih =>
    rw [firstAtMax_cons] at h
    by_cases ha : a.creationTimestamp = m
    · rw [if_pos ha] at h
      cases h
      exact ha
    · rw [if_neg ha] at h
      exact ih h

/-- C5: resolving the latest-alias over an empty namespace fails with
NotFound("no workflows found"); otherwise the result is the first
listed workflow attaining the maximal creation timestamp (so ties keep
the earliest-seen item), and it bounds every listed timestamp. -/
theorem claim5_holds (wfList : List Workflow) :
    (wfList = [] →
      getLatestWorkflow wfList = .error ⟨some .notFound, "no workflows found"⟩)
    ∧ (wfList ≠ [] → ∃ w, getLatestWorkflow wfList = .ok w
        ∧ firstAtMax (maxCreationTS wfList) wfList = some w
        ∧ ∀ x ∈ wfList, x.creationTimestamp ≤ w.creationTimestamp) := by
  constructor
  · intro h
    subst h
    rfl
  · intro h
    obtain ⟨w, rest, rfl⟩ := List.exists_cons_of_ne_nil h
    refine ⟨rest.foldl latestStep w, ?_, foldl_latestStep_eq_firstAtMax w rest, ?_⟩
    · show Except.ok ((w :: rest).foldl latestStep w) = _
      rw [List.foldl_cons, show latestStep w w = w from if_neg (lt_irrefl _)]
    · intro x hx
      have hts : (rest.foldl latestStep w).creationTimestamp
          = maxCreationTS (w :: rest) :=
        firstAtMax_ts _ _ _ (foldl_latestStep_eq_firstAtMax w rest)
      rw [hts]
      exact le_maxCreationTS _ x hx

/-- Witness for C5: the empty namespace and a two-element namespace
with a timestamp tie (the first of the two tied items wins). -/
theorem claim5_witness :
    (getLatestWorkflow [] = .error ⟨some .notFound, "no workflows found"⟩)
    ∧ (∃ w, getLatestWorkflow [wfLiveA] = .ok w
        ∧ firstAtMax (maxCreationTS [wfLiveA]) [wfLiveA] = some w
        ∧ ∀ x ∈ [wfLiveA], x.creationTimestamp ≤ w.creationTimestamp) :=
  ⟨(claim5_holds []).1 rfl, (claim5_holds [wfLiveA]).2 (by decide)⟩

/-! ## Claim C6 -/

/-- C6: a set-outcome request whose phase is outside
{Succeeded, Failed, Error, unset} fails with InvalidArgument and the
substrate state is returned untouched — for every possible mutation
function, so no mutation can have been applied; phases in the set pass
the phase check. -/
theorem claim6_holds {σ : Type} (st : σ) (wf : Workflow) (reqPhase : String)
    (outputParamsRes : Except Err (List (String × String)))
    (applySet : σ → Except Err σ) (refetch : σ → Except Err Workflow)
    (hbad : validPhaseToSet reqPhase = false) :
    setWorkflowServer st (.ok wf) (.ok ()) reqPhase outputParamsRes applySet refetch
      = (.error ⟨some .invalidArgument, reqPhase ++ " is an invalid phase to set to"⟩, st)
    ∧ (validPhaseToSet "Succeeded" = true ∧ validPhaseToSet "Failed" = true
        ∧ validPhaseToSet "Error" = true ∧ validPhaseToSet "" = true) := by
  refine ⟨?_, by decide⟩
  simp [setWorkflowServer, hbad, toStatusError]

/-- Witness for C6: phase "Unknown" is rejected with the state (here a
counter) unchanged, for a mutation function that would have changed
it. -/
theorem claim6_witness :
    setWorkflowServer (0 : Nat) (.ok wfLiveA) (.ok ()) "Unknown" (.ok [])
        (fun n => .ok (n + 1)) (fun _ => .ok wfLiveA)
      = (.error ⟨some .invalidArgument, "Unknown is an invalid phase to set to"⟩, 0) :=
  (claim6_holds (0 : Nat) wfLiveA "Unknown" (.ok []) (fun n => .ok (n + 1))
    (fun _ => .ok wfLiveA) (by decide)).1

/-! ## Claim C7 -/

/-- C7: in a retry whose preliminary steps succeed, (a) a deletion is
issued for every pod to delete, whatever the outcomes; (b) when no
deletion fails with a non-not-found error nothing reaches the channel
(not-found counts as success); (c) when some deletion fails with a
non-not-found error, after all deletions the operation reports exactly
one error — the first the channel delivers — re-coded Internal; (d)
with an empty channel the retry proceeds to dehydrate and persist. -/
theorem claim7_holds (getWf formWf : Workflow) (pods : List String)
    (del : String → DeleteOutcome) (chOrder : List Err)
    (dehydrateRes : Except Err Unit) (updateRes : Except Err Workflow)
    (hperm : chOrder.Perm (podDeletionErrors del pods)) :
    ((retryWorkflowServer (.ok getWf) (.ok ()) (.ok ()) (.ok (formWf, pods)) del
        chOrder dehydrateRes updateRes).2 = pods)
    ∧ ((∀ p ∈ pods, ∀ e, del p ≠ .otherErr e) →
        podDeletionErrors del pods = [] ∧ chOrder = [])
    ∧ (∀ e0, e0 ∈ podDeletionErrors del pods →
        ∃ e, errorFromChannel chOrder = some e
          ∧ (retryWorkflowServer (.ok getWf) (.ok ()) (.ok ()) (.ok (formWf, pods)) del
              chOrder dehydrateRes updateRes).1 = .error (toStatusError e .internal))
    ∧ (chOrder = [] → dehydrateRes = .ok () → ∀ wfU,
        updateRes = .ok wfU →
        (retryWorkflowServer (.ok getWf) (.ok ()) (.ok ()) (.ok (formWf, pods)) del
            chOrder dehydrateRes updateRes).1 = .ok wfU) := by
  have hissued : (runPodDeletions del pods).1 = pods := by
    rw [runPodDeletions_eq]
  refine ⟨?_, ?_, ?_, ?_⟩
  · rcases hch : errorFromChannel chOrder with _ | e
    · rcases dehydrateRes with e2 | u
      · simp [retryWorkflowServer, hch, hissued]
      · rcases updateRes with e3 | w3 <;> simp [retryWorkflowServer, hch, hissued]
    · simp [retryWorkflowServer, hch, hissued]
  · intro hnone
    have herr : podDeletionErrors del pods = [] := by
      apply List.filterMap_eq_nil_iff.mpr
      intro p hp
      rcases hdel : del p with _ | e | e
      · simp [hdel]
      · simp [hdel]
      · exact absurd hdel (hnone p hp e)
    rw [herr] at hperm
    exact ⟨herr, hperm.eq_nil⟩
  · intro e0 he0
    have hne : chOrder ≠ [] := by
      intro hnil
      rw [hnil] at hperm
      rw [hperm.symm.eq_nil] at he0
      cases he0
    obtain ⟨e, rest, rfl⟩ := List.exists_cons_of_ne_nil hne
    refine ⟨e, rfl, ?_⟩
    simp [retryWorkflowServer, errorFromChannel]
  · intro hnil hdehy wfU hupd
    subst hnil
    subst hdehy
    subst hupd
    simp [retryWorkflowServer, errorFromChannel]

/-- The deletion-outcome function used by the C7 witness: the second
pod fails with a non-not-found error. -/
def delW : String → DeleteOutcome :=
  fun p => if p = "p2" then .otherErr ⟨none, "boom"⟩ else .ok

/-- Witness for C7: two pods, one failing deletion; both deletions are
issued and the single failure is reported as the one Internal error. -/
theorem claim7_witness :
    ((retryWorkflowServer (.ok wfLiveA) (.ok ()) (.ok ()) (.ok (wfLiveA, ["p1", "p2"]))
        delW [⟨none, "boom"⟩] (.ok ()) (.ok wfLiveA)).2 = ["p1", "p2"])
    ∧ (∃ e, errorFromChannel [(⟨none, "boom"⟩ : Err)] = some e
        ∧ (retryWorkflowServer (.ok wfLiveA) (.ok ()) (.ok ()) (.ok (wfLiveA, ["p1", "p2"]))
            delW [⟨none, "boom"⟩] (.ok ()) (.ok wfLiveA)).1
          = .error (toStatusError e .internal)) :=
  ⟨(claim7_holds wfLiveA wfLiveA ["p1", "p2"] delW [⟨none, "boom"⟩] (.ok ())
      (.ok wfLiveA) (by decide)).1,
    (claim7_holds wfLiveA wfLiveA ["p1", "p2"] delW [⟨none, "boom"⟩] (.ok ())
      (.ok wfLiveA) (by decide)).2.2.1 ⟨none, "boom"⟩ (by decide)⟩

/-! ## Claim C8 -/

/-- Every failure of the watch loop body carries the Internal code. -/
theorem processWatchEvent_error_internal (e : WatchEventData) (err : Err)
    (h : processWatchEvent e = .error err) : err.code = some .internal := by
  unfold processWatchEvent at h
  by_cases hw : e.isWorkflow = false
  · rw [if_pos hw] at h
    cases h
    rfl
  · rw [if_neg hw] at h
    rcases h1 : (if e.willExcludeNodes = false then e.hydrateRes else Except.ok ())
      with msg | u
    · rw [h1] at h
      cases h
      rfl
    · rw [h1] at h
      rcases h2 : e.cleanRes with msg | wf
      · rw [h2] at h
        cases h
        rfl
      · rw [h2] at h
        rcases h3 : e.sendRes with msg | u2
        · rw [h3] at h
          cases h
          rfl
        · rw [h3] at h
          cases h

/-- C8: after any prefix of successfully processed events, a cancelled
caller context ends the stream cleanly with no error; a closed
substrate event channel ends it with ResourceExhausted; and an event
whose hydration, projection or send fails ends it with that failure,
which always carries the Internal code. -/
theorem claim8_holds (pre : List WatchEventData) (rest : List WatchStep)
    (hok : ∀ e ∈ pre, processWatchEvent e = .ok ()) :
    watchWorkflows (.ok ()) (pre.map WatchStep.ev ++ WatchStep.ctxDone :: rest)
      = some (.ok ())
    ∧ watchWorkflows (.ok ()) (pre.map WatchStep.ev ++ WatchStep.chanClosed :: rest)
      = some (.error ⟨some .resourceExhausted, "EOF"⟩)
    ∧ (∀ e err, processWatchEvent e = .error err →
        watchWorkflows (.ok ()) (pre.map WatchStep.ev ++ WatchStep.ev e :: rest)
          = some (.error err) ∧ err.code = some .internal) := by
  induction pre with
  | nil =>
    refine ⟨rfl, rfl, ?_⟩
    intro e err he
    refine ⟨?_, processWatchEvent_error_internal e err he⟩
    simp [watchWorkflows, watchLoop, he]
  | cons a t ih =>
    have ha : processWatchEvent a = .ok () := hok a (List.mem_cons_self a t)
    have ih2 := ih (fun e he => hok e (List.mem_cons_of_mem a he))
    refine ⟨?_, ?_, ?_⟩
    · simpa [watchWorkflows, watchLoop, ha] using ih2.1
    · simpa [watchWorkflows, watchLoop, ha] using ih2.2.1
    · intro e err he
      refine ⟨?_, processWatchEvent_error_internal e err he⟩
      have := (ih2.2.2 e err he).1
      simpa [watchWorkflows, watchLoop, ha] using this

/-- A failing watch event used by the C8 witness: the projection
(field cleaning) fails. -/
def evBad : WatchEventData :=
  { isWorkflow := true, willExcludeNodes := false, hydrateRes := .ok ()
    cleanRes := .error "marshal failure", sendRes := .ok () }

/-- Witness for C8 with an empty prefix: context cancellation is a
clean end, channel closure is ResourceExhausted, and a projection
failure is an Internal error. -/
theorem claim8_witness :
    watchWorkflows (.ok ()) [WatchStep.ctxDone] = some (.ok ())
    ∧ watchWorkflows (.ok ()) [WatchStep.chanClosed]
      = some (.error ⟨some .resourceExhausted, "EOF"⟩)
    ∧ (watchWorkflows (.ok ()) [WatchStep.ev evBad]
        = some (.error ⟨some .internal, "unable to CleanFields in request: marshal failure"⟩)
      ∧ (⟨some .internal, "unable to CleanFields in request: marshal failure"⟩ : Err).code
        = some .internal) :=
  ⟨(claim8_holds [] [] (by intro e he; cases he)).1,
    (claim8_holds [] [] (by intro e he; cases he)).2.1,
    (claim8_holds [] [] (by intro e he; cases he)).2.2 evBad
      ⟨some .internal, "unable to CleanFields in request: marshal failure"⟩ rfl⟩

/-! ## Claim C9 -/

/-- C9 is stated for every server-timeout create failure, but line 135
additionally requires a non-empty `GenerateName` and a non-empty
`Name`: a timeout on a workflow with no `generateName` returns
Internal, not DeadlineExceeded. -/
theorem claim9_counterexample :
    createWorkflowServer (some ⟨"wf1", ""⟩) (.ok ()) false false (.ok ⟨"", ""⟩)
        (.error ⟨true, "timeout"⟩)
      = .error ⟨some .internal, "timeout"⟩
    ∧ (∀ m, createWorkflowServer (some ⟨"wf1", ""⟩) (.ok ()) false false (.ok ⟨"", ""⟩)
        (.error ⟨true, "timeout"⟩) ≠ .error ⟨some .deadlineExceeded, m⟩) := by
  have h1 : createWorkflowServer (some ⟨"wf1", ""⟩) (.ok ()) false false (.ok ⟨"", ""⟩)
      (.error ⟨true, "timeout"⟩) = .error ⟨some .internal, "timeout"⟩ := rfl
  refine ⟨h1, ?_⟩
  intro m h
  rw [h1] at h
  simp at h

/-- C9 (amended): a substrate create failure is returned as
DeadlineExceeded with the may-already-exist hint naming the workflow
exactly when it is a server timeout and the request body has both a
generate-name and a name; every other create failure is Internal. -/
theorem claim9_holds (w : CreateReqWf) (ce : CreateFailure)
    (sdr : Except Err CreateReqWf)
    (hto : ce.isServerTimeout = true) (hg : w.generateName ≠ "") (hn : w.name ≠ "") :
    createWorkflowServer (some w) (.ok ()) false false sdr (.error ce)
      = .error ⟨some .deadlineExceeded, createTimeoutHint w.name ce.msg⟩
    ∧ (∀ (w2 : CreateReqWf) (ce2 : CreateFailure) (sdr2 : Except Err CreateReqWf),
        ¬ (ce2.isServerTimeout = true ∧ w2.generateName ≠ "" ∧ w2.name ≠ "") →
        createWorkflowServer (some w2) (.ok ()) false false sdr2 (.error ce2)
          = .error ⟨some .internal, ce2.msg⟩) := by
  constructor
  · simp [createWorkflowServer, hto, hg, hn, toStatusError]
  · intro w2 ce2 sdr2 hnot
    simp [createWorkflowServer, hnot, toStatusError]

/-- Witness for C9 (amended): a timeout with both names set yields
DeadlineExceeded plus the hint naming the workflow. -/
theorem claim9_witness :
    createWorkflowServer (some ⟨"wf-abcde", "wf-"⟩) (.ok ()) false false (.ok ⟨"", ""⟩)
        (.error ⟨true, "timeout"⟩)
      = .error ⟨some .deadlineExceeded, createTimeoutHint "wf-abcde" "timeout"⟩ :=
  (claim9_holds ⟨"wf-abcde", "wf-"⟩ ⟨true, "timeout"⟩ (.ok ⟨"", ""⟩)
    (by decide) (by decide) (by decide)).1

/-! ## Claim C10 -/

/-- Invariant of the archive retry loop: on success the accumulated
UID list stays duplicate-free and only grows with UIDs of listed
workflows. -/
theorem retryLoop_ok (retryCall : Workflow → Except Err Workflow) (wfs : List Workflow) :
    ∀ (acc : List String) (last : Option Workflow) (retried : List String)
      (lastR : Option Workflow),
      retryLoop retryCall wfs acc last = .ok (retried, lastR) →
      (acc.Nodup → retried.Nodup)
      ∧ (∀ u ∈ retried, u ∈ acc ∨ ∃ wf ∈ wfs, wf.uid = u) := by
  induction wfs with
  | nil =>
    intro acc last retried lastR h
    simp only [retryLoop] at h
    obtain ⟨rfl, rfl⟩ : acc = retried ∧ last = lastR := by simpa using h
    exact ⟨fun ha => ha, fun u hu => Or.inl hu⟩
  | cons wf rest ih =>
    intro acc last retried lastR h
    simp only [retryLoop] at h
    by_cases hmem : wf.uid ∈ acc
    · rw [if_pos hmem] at h
      have hi := ih acc last retried lastR h
      refine ⟨hi.1, fun u hu => ?_⟩
      rcases hi.2 u hu with h1 | ⟨wf2, hwf2, he⟩
      · exact Or.inl h1
      · exact Or.inr ⟨wf2, List.mem_cons_of_mem _ hwf2, he⟩
    · rw [if_neg hmem] at h
      rcases hcall : retryCall wf with e | w
      · simp only [hcall] at h
        exact Except.noConfusion h
      · simp only [hcall] at h
        have hi := ih (acc ++ [wf.uid]) (some w) retried lastR h
        refine ⟨fun ha => ?_, fun u hu => ?_⟩
        · apply hi.1
          simp [List.nodup_append, ha, hmem]
        · rcases hi.2 u hu with h1 | ⟨wf2, hwf2, he⟩
          · rcases List.mem_append.mp h1 with h2 | h2
            · exact Or.inl h2
            · have h3 : u = wf.uid := by simpa using h2
              exact Or.inr ⟨wf, List.mem_cons_self _ _, h3.symm⟩
          · exact Or.inr ⟨wf2, List.mem_cons_of_mem _ hwf2, he⟩

/-- C10: a successful archive retry command never retries a UID twice
(the retried-UID list is duplicate-free and drawn from the assembled
worklist), and the wait/watch/log follow-up runs only when exactly one
distinct UID was retried. -/
theorem claim10_holds (selectorWfs : List Workflow) (hasSelector : Bool)
    (args : List String) (ns : String) (retryCall : Workflow → Except Err Workflow)
    (retried : List String) (lastRetried : Option Workflow) (followUp : Bool)
    (hres : retryArchivedWorkflows selectorWfs hasSelector args ns retryCall
      = .ok (retried, lastRetried, followUp)) :
    retried.Nodup
    ∧ (followUp = true → retried.length = 1)
    ∧ (∀ u ∈ retried,
        ∃ wf ∈ (if hasSelector then selectorWfs else []) ++ argWorkflows args ns,
          wf.uid = u) := by
  simp only [retryArchivedWorkflows] at hres
  rcases hloop : retryLoop retryCall
      ((if hasSelector then selectorWfs else []) ++ argWorkflows args ns) [] none
    with e | ⟨r2, l2⟩
  · simp only [hloop] at hres
    exact Except.noConfusion hres
  · simp only [hloop] at hres
    obtain ⟨rfl, rfl, rfl⟩ :
        r2 = retried ∧ l2 = lastRetried ∧ decide (r2.length = 1) = followUp := by
      simpa using hres
    have hinv := retryLoop_ok retryCall _ [] none r2 l2 hloop
    refine ⟨hinv.1 List.nodup_nil, ?_, ?_⟩
    · intro hf
      exact of_decide_eq_true hf
    · intro u hu
      rcases hinv.2 u hu with h1 | h2
      · cases h1
      · exact h2

/-- The selector-matched archived workflow used by the C10 witness;
its UID also appears among the command arguments. -/
def wfU1 : Workflow :=
  { ns := "ns1", name := "sel", uid := "u1", creationTimestamp := 0, finishedAt := none }

/-- Witness for C10: a selector match overlapping the UID arguments is
retried once; with two distinct UIDs retried, the follow-up does not
run. -/
theorem claim10_witness :
    (["u1", "u2"] : List String).Nodup
    ∧ (false = true → (["u1", "u2"] : List String).length = 1)
    ∧ (∀ u ∈ (["u1", "u2"] : List String),
        ∃ wf ∈ (if true then [wfU1] else []) ++ argWorkflows ["u1", "u2"] "ns1",
          wf.uid = u) :=
  claim10_holds [wfU1] true ["u1", "u2"] "ns1" (fun wf => .ok wf)
    ["u1", "u2"]
    (some { ns := "ns1", name := "", uid := "u2", creationTimestamp := 0, finishedAt := none })
    false rfl

end ArgoWfServer
